import Mathlib

/-!
Verification development for the job-application tracker
(`app_tracker.py`, `migrate_data.py`).

The persistence core is shallowly embedded:

* a stored CSV file is a `List Char`; a pandas DataFrame is a `Frame`
  (ordered column names plus rows of textual cells, each cell a `List Char`);
* `to_csv` / `read_csv` model `df.to_csv(path, index=False)` and
  `pd.read_csv(path)` at the text level (RFC-4180 minimal quoting, which is
  pandas' default `QUOTE_MINIMAL` discipline; all cells as text);
* `load_data`, `save_data`, `show_add_entry_form`, `show_modify_entry_form`,
  `show_delete_form` and `run_migration` are translated from the source, with
  the file system, the wall clock and the interactive widget inputs passed in
  explicitly (a `FileState`, a `now` string, the form field values).
-/

namespace AppTracker

/-- A cell / field value: Python text, modelled as a list of characters. -/
abbrev Field := List Char

/-- Shorthand turning a Lean string literal into a `Field`. -/
def txt (s : String) : Field := s.data

/-- `ALLOWED_STATUSES = ["Submitted", "Interviewing", "Rejected", "Not Submitted"]`
(app_tracker.py line 13). -/
def ALLOWED_STATUSES : List Field :=
  [txt "Submitted", txt "Interviewing", txt "Rejected", txt "Not Submitted"]

/-- `HEADERS = ['Job_Title', 'Company', 'Date_Submitted', 'Requirements_Matched',
'Link', 'Status', "Require_Enhancement"]` (app_tracker.py line 15). -/
def HEADERS : List Field :=
  [txt "Job_Title", txt "Company", txt "Date_Submitted",
   txt "Requirements_Matched", txt "Link", txt "Status",
   txt "Require_Enhancement"]

/-- A pandas DataFrame with every cell held as text: ordered column names and
rows of cells. -/
structure Frame where
  cols : List Field
  rows : List (List Field)
deriving DecidableEq, Repr

/-- A well-formed frame: every row has exactly one cell per column. -/
def Frame.WF (df : Frame) : Prop :=
  ∀ r ∈ df.rows, r.length = df.cols.length

/-- A Dataset in the sense of the schema: a frame whose columns are exactly
the seven `HEADERS` in order, every row carrying seven cells. -/
def Frame.IsDataset (df : Frame) : Prop :=
  df.cols = HEADERS ∧ ∀ r ∈ df.rows, r.length = 7

instance (df : Frame) : Decidable df.IsDataset := by
  unfold Frame.IsDataset; infer_instance

/-- `pd.DataFrame(columns=HEADERS)`: the empty dataset. -/
def emptyFrame : Frame := ⟨HEADERS, []⟩

/-- The cell of row `r` under column position `i` (text, empty if absent). -/
def cellAt (r : List Field) (i : Nat) : Field := r.getD i []

/-- Position of the first column named `c`, if any. -/
def colIdx (cs : List Field) (c : Field) : Option Nat :=
  match cs with
  | [] => none
  | c0 :: rest => if c0 = c then some 0 else (colIdx rest c).map (· + 1)

/-! ## CSV text encoding (pandas `to_csv`, QUOTE_MINIMAL) -/

/-- A cell needs quoting when it contains the delimiter, the quote character
or a line break (csv.QUOTE_MINIMAL). -/
def needsQuote (f : Field) : Bool :=
  f.any fun c => c = ',' || c = '"' || c = '\n' || c = '\x0d'

/-- Double every quote character inside a quoted cell. -/
def escapeField : Field → List Char
  | [] => []
  | c :: rest => if c = '"' then '"' :: '"' :: escapeField rest
                 else c :: escapeField rest

/-- Encode one cell: quote-and-escape exactly when needed. -/
def encodeField (f : Field) : List Char :=
  if needsQuote f then '"' :: (escapeField f ++ ['"']) else f

/-- Encode one row: cells joined by commas. -/
def encodeRow : List Field → List Char
  | [] => []
  | [f] => encodeField f
  | f :: rest => encodeField f ++ ',' :: encodeRow rest

/-- Encode a list of rows, each terminated by a newline. -/
def encodeRows (rows : List (List Field)) : List Char :=
  (rows.map fun r => encodeRow r ++ ['\n']).flatten

/-- `df.to_csv(path, index=False)`: header row then the data rows,
one line each. -/
def to_csv (df : Frame) : List Char :=
  encodeRows (df.cols :: df.rows)

/-! ## CSV text parsing (pandas `read_csv`, cells as text) -/

/-- Parse the body of a quoted cell (the opening quote already consumed):
a doubled quote is a literal quote, a single quote closes the cell.
Returns the cell and the unconsumed remainder. -/
def parseQuoted : List Char → List Char × List Char
  | [] => ([], [])
  | c :: rest =>
    if c = '"' then
      match rest with
      | [] => ([], [])
      | c2 :: rest2 =>
        if c2 = '"' then
          let p := parseQuoted rest2
          ('"' :: p.1, p.2)
        else ([], rest)
    else
      let p := parseQuoted rest
      (c :: p.1, p.2)

/-- Parse an unquoted cell: characters up to (excluding) the next comma or
newline. -/
def parseUnquoted : List Char → List Char × List Char
  | [] => ([], [])
  | c :: rest =>
    if c = ',' ∨ c = '\n' then ([], c :: rest)
    else
      let p := parseUnquoted rest
      (c :: p.1, p.2)

/-- Parse one cell: quoted when it starts with a quote, unquoted otherwise. -/
def parseField (s : List Char) : List Char × List Char :=
  match s with
  | [] => ([], [])
  | c :: rest => if c = '"' then parseQuoted rest else parseUnquoted s

/-- Parse one row (fuelled; the fuel bounds the number of cells, and
`parseRow` supplies more fuel than any input can consume): cells separated by
commas, the row ending at a newline or at the end of input. -/
def parseRowAux : Nat → List Char → List Field × List Char
  | 0, s => ([], s)
  | fuel + 1, s =>
    let p := parseField s
    match p.2 with
    | [] => ([p.1], [])
    | c :: rest =>
      if c = ',' then
        let q := parseRowAux fuel rest
        (p.1 :: q.1, q.2)
      else if c = '\n' then ([p.1], rest)
      else ([p.1], c :: rest)

/-- Parse one row of a CSV text. -/
def parseRow (s : List Char) : List Field × List Char :=
  parseRowAux (s.length + 1) s

/-- Parse all rows (fuelled; the fuel bounds the number of rows). -/
def parseCsvAux : Nat → List Char → List (List Field)
  | 0, _ => []
  | fuel + 1, s =>
    if s.isEmpty then []
    else
      let p := parseRow s
      p.1 :: parseCsvAux fuel p.2

/-- Parse a CSV text into its rows. -/
def parseCsv (s : List Char) : List (List Field) :=
  parseCsvAux (s.length + 1) s

/-- Pad a parsed row on the right with empty cells up to the header width
(pandas fills short rows with missing values, empty as text). -/
def padRow (n : Nat) (r : List Field) : List Field :=
  r ++ List.replicate (n - r.length) []

/-- `pd.read_csv(path)` at the text level: `none` models the exceptions
pandas raises (empty file: EmptyDataError; a row wider than the header:
ParserError), `some` the parsed frame with every cell as text. -/
def read_csv (s : List Char) : Option Frame :=
  match parseCsv s with
  | [] => none
  | header :: rows =>
    if rows.any (fun r => header.length < r.length) then none
    else some ⟨header, rows.map (padRow header.length)⟩

/-- `df.reindex(columns=cs, fill_value='')`: reorder the columns to `cs`,
keeping the cells of columns already present and filling the cells of absent
columns with the empty string. -/
def reindex (df : Frame) (cs : List Field) : Frame :=
  ⟨cs, df.rows.map fun r =>
    cs.map fun c =>
      match colIdx df.cols c with
      | some i => cellAt r i
      | none => []⟩

/-! ## The file system boundary -/

/-- The state of the configured file path. -/
inductive FileState
  | absent
  | present (content : List Char)
deriving DecidableEq, Repr

/-- How a `load_data` call reported itself. -/
inductive LoadOutcome
  | initialized   -- new file created, `st.toast`
  | initFailed    -- creation failed, `st.warning` (non-fatal)
  | readOk        -- existing file parsed
  | readError     -- existing file unreadable, `st.error`
deriving DecidableEq, Repr

/-- Result of `load_data`: the returned frame, the file state afterwards and
the message surfaced. -/
structure LoadResult where
  df : Frame
  fs : FileState
  outcome : LoadOutcome
deriving DecidableEq, Repr

/-- `load_data()` (app_tracker.py lines 20-49). `canCreate` tells whether the
directory/file creation at line 31-33 succeeds. -/
def load_data (fs : FileState) (canCreate : Bool) : LoadResult :=
  match fs with
  | .absent =>
    if canCreate then ⟨emptyFrame, .present (to_csv emptyFrame), .initialized⟩
    else ⟨emptyFrame, .absent, .initFailed⟩
  | .present content =>
    match read_csv content with
    | some df => ⟨reindex df HEADERS, .present content, .readOk⟩
    | none => ⟨emptyFrame, .present content, .readError⟩

/-- Result of `save_data`: the file state afterwards and whether the write
succeeded (`false` models the caught exception reported via `st.error`). -/
structure SaveResult where
  fs : FileState
  ok : Bool
deriving DecidableEq, Repr

/-- `save_data(df)` (app_tracker.py lines 51-62). `canWrite` tells whether
`df.to_csv(file_path, index=False)` succeeds. -/
def save_data (df : Frame) (fs : FileState) (canWrite : Bool) : SaveResult :=
  if canWrite then ⟨.present (to_csv df), true⟩ else ⟨fs, false⟩

/-! ## The link validator and Python string helpers -/

/-- Python `\s` over the ASCII range: space, tab, newline, carriage return,
vertical tab, form feed. -/
def isPySpace (c : Char) : Bool :=
  c = ' ' || c = '\t' || c = '\n' || c = '\x0d' || c = '\x0b' || c = '\x0c'

/-- Python `str.strip()`: drop leading and trailing whitespace. -/
def pyStrip (s : List Char) : List Char :=
  ((s.dropWhile isPySpace).reverse.dropWhile isPySpace).reverse

/-- The character class `[a-zA-Z0-9]` of `URL_REGEX`. -/
def isUrlAlnum (c : Char) : Bool :=
  ('a' ≤ c && c ≤ 'z') || ('A' ≤ c && c ≤ 'Z') || ('0' ≤ c && c ≤ '9')

/-- Strip a literal from the front of `s`: `some` the remainder when `s`
starts with `lit`, else `none`. -/
def afterLit : List Char → List Char → Option (List Char)
  | [], s => some s
  | _, [] => none
  | a :: lit, b :: s => if a = b then afterLit lit s else none

/-- Full match of the suffix `[a-zA-Z0-9]+\.[^\s]{2,}` of `URL_REGEX`:
a nonempty alphanumeric run, a literal dot, then at least two characters
none of which is whitespace.  (The alternation is deterministic: the
alphanumeric run is necessarily the maximal one, since the character after
it must be the literal dot.) -/
def matchesTail (t : List Char) : Bool :=
  let a := t.takeWhile isUrlAlnum
  match t.dropWhile isUrlAlnum with
  | [] => false
  | c :: b => !a.isEmpty && c = '.' && 2 ≤ b.length && b.all (fun d => !isPySpace d)

/-- Full match of `(?:www\.|(?!www\.))[a-zA-Z0-9]+\.[^\s]{2,}`: when the text
starts with `www.` only the first alternative can apply (the lookahead of the
second fails), otherwise only the second. -/
def matchesHost (mid : List Char) : Bool :=
  match afterLit (txt "www.") mid with
  | some t => matchesTail t
  | none => matchesTail mid

/-- `re.fullmatch(URL_REGEX, s)` with
`URL_REGEX = r"https?://(?:www\.|(?!www\.))[a-zA-Z0-9]+\.[^\s]{2,}"`
(app_tracker.py lines 14 and 130). -/
def validate_link (s : List Char) : Bool :=
  match afterLit (txt "https://") s with
  | some mid => matchesHost mid
  | none =>
    match afterLit (txt "http://") s with
    | some mid => matchesHost mid
    | none => false

/-! ## The Add Entry form (insert) -/

/-- The widget values submitted through the Add Entry form. `job_link_raw`
is the text as typed; the source strips it at line 122 before use. -/
structure AddInput where
  job_title : Field
  company : Field
  requirements : Field
  require_enhancement : Field
  job_link_raw : Field
  status : Field
deriving DecidableEq, Repr

/-- How the Add Entry submission reported itself. -/
inductive AddOutcome
  | missingRequired          -- "Please fill in Job Title, Company, and Job Link."
  | invalidUrl               -- "Invalid URL Format. ..."
  | saved (saveOk : Bool)    -- entry appended; `saveOk` is the save result
deriving DecidableEq, Repr

/-- Result of an Add Entry submission: the session frame afterwards, the file
state afterwards and the message surfaced. -/
structure AddResult where
  df : Frame
  fs : FileState
  outcome : AddOutcome
deriving DecidableEq, Repr

/-- The `new_entry` row of app_tracker.py lines 134-142, in `HEADERS` order. -/
def newEntryRow (inp : AddInput) (link now : Field) : List Field :=
  [inp.job_title, inp.company, now, inp.requirements, link,
   inp.status, inp.require_enhancement]

/-- `show_add_entry_form` submission handler (app_tracker.py lines 113-148).
`now` is `datetime.now().strftime('%Y-%m-%d %H:%M')`; `canWrite` tells
whether the save inside succeeds. -/
def show_add_entry_form (df : Frame) (inp : AddInput) (now : Field)
    (fs : FileState) (canWrite : Bool) : AddResult :=
  let job_link := pyStrip inp.job_link_raw
  if inp.job_title = [] ∨ inp.company = [] ∨ job_link = [] then
    ⟨df, fs, .missingRequired⟩
  else if validate_link job_link = false then
    ⟨df, fs, .invalidUrl⟩
  else
    let updated : Frame := ⟨df.cols, df.rows ++ [newEntryRow inp job_link now]⟩
    let sv := save_data updated fs canWrite
    ⟨updated, sv.fs, .saved sv.ok⟩

/-! ## The Modify Entry form (update) -/

/-- `Identifier` of a record: `Job_Title` and `Company` joined by " - "
(app_tracker.py line 161). -/
def identOf (r : List Field) : Field :=
  cellAt r 0 ++ txt " - " ++ cellAt r 1

/-- Index of the first record with the given identifier
(`df_temp[df_temp['Identifier'] == identifier].iloc[0]`). -/
def firstIdx (ident : Field) : List (List Field) → Option Nat
  | [] => none
  | r :: rest =>
    if identOf r = ident then some 0 else (firstIdx ident rest).map (· + 1)

/-- The presentation default for the Status selectbox (app_tracker.py
line 178): the stored value when it is an allowed status, else the first
allowed status. -/
def statusFallback (s : Field) : Field :=
  if s ∈ ALLOWED_STATUSES then s else txt "Submitted"

/-- Preparing a record for modification (app_tracker.py lines 160-178): the
source works on `df.copy()`, so the live frame is returned untouched next to
the Status value the form will present. -/
def prepare_modify_status (df : Frame) (ident : Field) : Option Field × Frame :=
  match firstIdx ident df.rows with
  | none => (none, df)
  | some i => (some (statusFallback (cellAt (df.rows.getD i []) 5)), df)

/-- The new values submitted through the Modify form for the editable
columns (every column except `Date_Submitted`). -/
structure ModInput where
  job_title : Field
  company : Field
  requirements : Field
  link : Field
  status : Field
  require_enhancement : Field
deriving DecidableEq, Repr

/-- How the Modify submission reported itself. `notFound` is the
`NotFoundError` of the specification: the source never reaches this case
because its selectbox only offers identifiers of existing records, so this
branch is modelled from the spec (no record matches, nothing happens). -/
inductive ModOutcome
  | notFound
  | applied (saveOk : Bool)
deriving DecidableEq, Repr

/-- Result of a Modify submission. -/
structure ModResult where
  df : Frame
  fs : FileState
  outcome : ModOutcome
deriving DecidableEq, Repr

/-- The row written back at lines 186-187: every column from the form except
`Date_Submitted`, which is copied from the selected row (lines 173-175). -/
def modifiedRow (old : List Field) (inp : ModInput) : List Field :=
  [inp.job_title, inp.company, cellAt old 2, inp.requirements, inp.link,
   inp.status, inp.require_enhancement]

/-- `show_modify_entry_form` submission handler (app_tracker.py lines
151-192): locate the first record whose identifier matches, overwrite it
with the form values (keeping `Date_Submitted`), save the full frame. -/
def show_modify_entry_form (df : Frame) (ident : Field) (inp : ModInput)
    (fs : FileState) (canWrite : Bool) : ModResult :=
  match firstIdx ident df.rows with
  | none => ⟨df, fs, .notFound⟩
  | some i =>
    let updated : Frame :=
      ⟨df.cols, df.rows.set i (modifiedRow (df.rows.getD i []) inp)⟩
    let sv := save_data updated fs canWrite
    ⟨updated, sv.fs, .applied sv.ok⟩

/-! ## The Delete form (delete_where) -/

/-- How the Delete submission reported itself. -/
inductive DelOutcome
  | deleted (count : Nat) (saveOk : Bool)   -- `st.success`, after saving
  | noMatch                                 -- `st.warning`, nothing saved
  | badColumn                               -- column not in the frame
deriving DecidableEq, Repr

/-- Result of a Delete submission. -/
structure DelResult where
  df : Frame
  fs : FileState
  outcome : DelOutcome
deriving DecidableEq, Repr

/-- `show_delete_form` submission handler (app_tracker.py lines 195-222):
keep the rows whose `col` cell differs from `value` (both already text
here, matching the `astype(str)` coercion of line 213); save and report the
removed count when positive, warn and save nothing when zero.  The source
offers only existing columns in its selectbox, so `badColumn` is
unreachable there. -/
def show_delete_form (df : Frame) (col value : Field)
    (fs : FileState) (canWrite : Bool) : DelResult :=
  match colIdx df.cols col with
  | none => ⟨df, fs, .badColumn⟩
  | some i =>
    let kept := df.rows.filter fun r => cellAt r i ≠ value
    let removed := df.rows.length - kept.length
    if removed > 0 then
      let updated : Frame := ⟨df.cols, kept⟩
      let sv := save_data updated fs canWrite
      ⟨updated, sv.fs, .deleted removed sv.ok⟩
    else ⟨df, fs, .noMatch⟩

/-! ## The migration script (migrate_data.py) -/

/-- How `run_migration` reported itself. -/
inductive MigOutcome
  | srcMissing            -- "ERROR: CSV file not found ..."
  | srcReadFailed         -- "ERROR reading CSV: ..."
  | connFailed            -- "ERROR connecting to SQLite: ..."
  | writeFailed           -- "ERROR writing data to SQLite table: ..."
  | migrated (count : Nat)
deriving DecidableEq, Repr

/-- `run_migration()` (migrate_data.py lines 19-57): read the whole source
CSV, then append its rows onto the destination table
(`df.to_sql(..., if_exists='append')`).  The destination table is the list
of its rows; `connOk` and `writeOk` tell whether the SQLite connection and
the table write succeed. -/
def run_migration (srcFs : FileState) (dest : List (List Field))
    (connOk writeOk : Bool) : List (List Field) × MigOutcome :=
  match srcFs with
  | .absent => (dest, .srcMissing)
  | .present content =>
    match read_csv content with
    | none => (dest, .srcReadFailed)
    | some df =>
      if connOk then
        if writeOk then (dest ++ df.rows, .migrated df.rows.length)
        else (dest, .writeFailed)
      else (dest, .connFailed)

/-! ## Round-trip of the CSV text layer -/

theorem parseQuoted_cons_ne (c : Char) (rest : List Char) (h : ¬c = '"') :
    parseQuoted (c :: rest) = (c :: (parseQuoted rest).1, (parseQuoted rest).2) := by
  rw [parseQuoted.eq_def]
  simp [h]

theorem parseQuoted_qq (rest : List Char) :
    parseQuoted ('"' :: '"' :: rest) =
      ('"' :: (parseQuoted rest).1, (parseQuoted rest).2) := by
  rw [parseQuoted.eq_def]
  simp

theorem parseQuoted_q_cons (c : Char) (rest : List Char) (h : ¬c = '"') :
    parseQuoted ('"' :: c :: rest) = ([], c :: rest) := by
  rw [parseQuoted.eq_def]
  simp [h]

theorem parseQuoted_q_nil : parseQuoted ['"'] = ([], []) := by
  rw [parseQuoted.eq_def]
  simp

/-- Lemma A. The quoted-cell parser inverts quote doubling: after the escaped
cell body and its closing quote it stops, as long as what follows does not
begin with another quote. -/
theorem parseQuoted_escape (f rest : List Char) (h : rest.head? ≠ some '"') :
    parseQuoted (escapeField f ++ '"' :: rest) = (f, rest) := by
  induction f with
  | nil =>
      simp only [escapeField, List.nil_append]
      cases rest with
      | nil => exact parseQuoted_q_nil
      | cons c r =>
          have hc : ¬c = '"' := by simpa using h
          exact parseQuoted_q_cons c r hc
  | cons c f ih =>
      by_cases hc : c = '"'
      · subst hc
        have hesc : escapeField ('"' :: f) = '"' :: '"' :: escapeField f := by
          simp [escapeField]
        rw [hesc, List.cons_append, List.cons_append, parseQuoted_qq, ih]
      · have hesc : escapeField (c :: f) = c :: escapeField f := by
          simp [escapeField, hc]
        rw [hesc, List.cons_append, parseQuoted_cons_ne c _ hc, ih]

/-- Lemma B. The unquoted-cell parser consumes a separator-free cell and
stops at the separator that follows it. -/
theorem parseUnquoted_clean (f : List Char) (c : Char) (rest : List Char)
    (hc : c = ',' ∨ c = '\n') (hf : ∀ d ∈ f, ¬(d = ',' ∨ d = '\n')) :
    parseUnquoted (f ++ c :: rest) = (f, c :: rest) := by
  induction f with
  | nil => simp [parseUnquoted, hc]
  | cons d f ih =>
      have hd : ¬(d = ',' ∨ d = '\n') := hf d (List.mem_cons_self d f)
      simp only [List.cons_append, parseUnquoted, if_neg hd, List.append_eq]
      rw [ih fun e he => hf e (List.mem_cons_of_mem d he)]

theorem needsQuote_false_mem (f : Field) (hq : needsQuote f = false) :
    ∀ d ∈ f, ¬d = ',' ∧ ¬d = '"' ∧ ¬d = '\n' ∧ ¬d = '\x0d' := by
  intro d hd
  unfold needsQuote at hq
  rw [List.any_eq_false] at hq
  have h2 := hq d hd
  simp only [Bool.or_eq_true, decide_eq_true_eq, not_or] at h2
  exact ⟨h2.1.1.1, h2.1.1.2, h2.1.2, h2.2⟩

/-- Lemma C. The cell parser inverts the cell encoder, provided a separator
follows. -/
theorem parseField_encodeField (f : List Char) (c : Char) (rest : List Char)
    (hc : c = ',' ∨ c = '\n') :
    parseField (encodeField f ++ c :: rest) = (f, c :: rest) := by
  have hcq : ¬c = '"' := by rcases hc with h | h <;> subst h <;> decide
  by_cases hq : needsQuote f
  · simp only [encodeField, if_pos hq, List.cons_append, List.append_assoc,
      List.singleton_append]
    simp only [parseField, if_pos rfl]
    exact parseQuoted_escape f (c :: rest) (by simpa using hcq)
  · have hmem := needsQuote_false_mem f (Bool.eq_false_iff.mpr hq)
    simp only [encodeField, if_neg hq]
    cases f with
    | nil =>
        simp only [List.nil_append, parseField, if_neg hcq]
        simp [parseUnquoted, hc]
    | cons d f2 =>
        have hd : ¬d = '"' := (hmem d (List.mem_cons_self d f2)).2.1
        simp only [List.cons_append, parseField, if_neg hd]
        have := parseUnquoted_clean (d :: f2) c rest hc fun e he => by
          have h3 := hmem e he
          tauto
        simpa using this

theorem encodeRow_cons_cons (f f2 : Field) (t : List Field) :
    encodeRow (f :: f2 :: t) = encodeField f ++ ',' :: encodeRow (f2 :: t) :=
  rfl

/-- Lemma D. With enough fuel (one unit per cell), the row parser inverts the
row encoder up to the terminating newline. -/
theorem parseRowAux_encodeRow (r : List Field) :
    ∀ (fuel : Nat) (rest : List Char), r ≠ [] → r.length ≤ fuel →
      parseRowAux fuel (encodeRow r ++ '\n' :: rest) = (r, rest) := by
  induction r with
  | nil => intro fuel rest h; exact absurd rfl h
  | cons f tail ih =>
      intro fuel rest _ hfuel
      match fuel, hfuel with
      | fuel + 1, hf2 =>
        cases tail with
        | nil =>
            simp only [parseRowAux, encodeRow]
            rw [parseField_encodeField f '\n' rest (Or.inr rfl)]
            simp
        | cons f2 t =>
            have hlen : (f2 :: t).length ≤ fuel := by
              simp only [List.length_cons] at hf2 ⊢
              omega
            simp only [parseRowAux, encodeRow_cons_cons, List.cons_append,
              List.append_assoc, List.cons_append]
            rw [parseField_encodeField f ','
              (encodeRow (f2 :: t) ++ '\n' :: rest) (Or.inl rfl)]
            simp [ih fuel rest (by simp) hlen]

theorem encodeRow_length_bound (r : List Field) :
    r.length ≤ (encodeRow r).length + 1 := by
  induction r with
  | nil => simp [encodeRow]
  | cons f tail ih =>
      cases tail with
      | nil => simp [encodeRow]
      | cons f2 t =>
          rw [encodeRow_cons_cons]
          simp only [List.length_append, List.length_cons] at *
          omega

/-- The row parser inverts the row encoder. -/
theorem parseRow_encodeRow (r : List Field) (rest : List Char) (h : r ≠ []) :
    parseRow (encodeRow r ++ '\n' :: rest) = (r, rest) := by
  apply parseRowAux_encodeRow r _ rest h
  have := encodeRow_length_bound r
  simp only [List.length_append, List.length_cons]
  omega

theorem encodeRows_cons (r : List Field) (rows : List (List Field)) :
    encodeRows (r :: rows) = encodeRow r ++ '\n' :: encodeRows rows := by
  simp [encodeRows]

theorem encodeRows_length_bound (rows : List (List Field)) :
    rows.length ≤ (encodeRows rows).length := by
  induction rows with
  | nil => simp [encodeRows]
  | cons r rows ih =>
      rw [encodeRows_cons]
      simp only [List.length_append, List.length_cons]
      omega

/-- Lemma E. With enough fuel (one unit per row), the file parser inverts the
row-list encoder, for rows that each have at least one cell. -/
theorem parseCsvAux_encodeRows (rows : List (List Field)) :
    ∀ fuel : Nat, (∀ r ∈ rows, r ≠ []) → rows.length ≤ fuel →
      parseCsvAux fuel (encodeRows rows) = rows := by
  induction rows with
  | nil => intro fuel _ _; cases fuel <;> simp [parseCsvAux, encodeRows]
  | cons r rows ih =>
      intro fuel hne hfuel
      match fuel, hfuel with
      | fuel + 1, hf2 =>
        have hlen : rows.length ≤ fuel := by
          simp only [List.length_cons] at hf2
          omega
        rw [encodeRows_cons]
        have hnonempty : (encodeRow r ++ '\n' :: encodeRows rows).isEmpty = false := by
          simp [List.isEmpty_iff]
        simp only [parseCsvAux, hnonempty, Bool.false_eq_true, if_neg]
        rw [parseRow_encodeRow r (encodeRows rows)
          (hne r (List.mem_cons_self r rows))]
        rw [ih fuel (fun x hx => hne x (List.mem_cons_of_mem r hx)) hlen]
        simp

/-- The file parser inverts the row-list encoder. -/
theorem parseCsv_encodeRows (rows : List (List Field))
    (h : ∀ r ∈ rows, r ≠ []) : parseCsv (encodeRows rows) = rows := by
  apply parseCsvAux_encodeRows rows _ h
  have := encodeRows_length_bound rows
  omega

/-- Round-trip of the text layer: `read_csv` parses back exactly the frame
that `to_csv` wrote, for any frame with at least one column and rows as wide
as the header. -/
theorem read_csv_to_csv (df : Frame) (hc : df.cols ≠ [])
    (hr : ∀ r ∈ df.rows, r.length = df.cols.length) :
    read_csv (to_csv df) = some df := by
  have hrows : ∀ r ∈ df.cols :: df.rows, r ≠ [] := by
    intro r hrmem
    rcases List.mem_cons.mp hrmem with h | h
    · subst h; exact hc
    · have h1 := hr r h
      have h2 : 0 < df.cols.length := List.length_pos.mpr hc
      intro hnil
      rw [hnil] at h1
      simp at h1
      omega
  unfold read_csv to_csv
  rw [parseCsv_encodeRows _ hrows]
  have hany : df.rows.any (fun r => df.cols.length < r.length) = false := by
    rw [List.any_eq_false]
    intro r hrm
    simp [hr r hrm]
  simp only [hany, Bool.false_eq_true, if_neg]
  have hpad : ∀ r ∈ df.rows, padRow df.cols.length r = r := by
    intro r hrm
    unfold padRow
    rw [hr r hrm]
    simp
  have hmap : df.rows.map (padRow df.cols.length) = df.rows := by
    rw [List.map_congr_left hpad]
    simp
  rw [hmap]
  simp

/-! ## Schema reconciliation -/

theorem length_eq_seven (r : List Field) (h : r.length = 7) :
    ∃ a b c d e f g, r = [a, b, c, d, e, f, g] := by
  rcases r with _ | ⟨a, _ | ⟨b, _ | ⟨c, _ | ⟨d, _ | ⟨e, _ | ⟨f, _ | ⟨g, _ | ⟨x, r⟩⟩⟩⟩⟩⟩⟩⟩
  · simp at h
  · simp at h
  · simp at h
  · simp at h
  · simp at h
  · simp at h
  · simp at h
  · exact ⟨a, b, c, d, e, f, g, rfl⟩
  · simp only [List.length_cons] at h
    omega

theorem reindex_cells (r : List Field) (h : r.length = 7) :
    (HEADERS.map fun c =>
      match colIdx HEADERS c with
      | some i => cellAt r i
      | none => []) = r := by
  obtain ⟨a, b, c, d, e, f, g, rfl⟩ := length_eq_seven r h
  rfl

/-- Reindexing a frame that is already shaped like a Dataset changes
nothing. -/
theorem reindex_id (df : Frame) (h : df.IsDataset) : reindex df HEADERS = df := by
  obtain ⟨hcols, hlen⟩ := h
  cases df with
  | mk cols rows =>
      simp only at hcols hlen
      subst hcols
      unfold reindex
      simp only [Frame.mk.injEq, true_and]
      rw [List.map_congr_left fun r hrm => reindex_cells r (hlen r hrm)]
      simp

/-- Any reindexed frame is shaped like a Dataset. -/
theorem reindex_isDataset (df : Frame) : (reindex df HEADERS).IsDataset := by
  constructor
  · rfl
  · intro r hrm
    unfold reindex at hrm
    simp only [List.mem_map] at hrm
    obtain ⟨r0, _, rfl⟩ := hrm
    simp [HEADERS]

/-- `read_csv` inverts `to_csv` on any Dataset. -/
theorem read_csv_to_csv_dataset (df : Frame) (h : df.IsDataset) :
    read_csv (to_csv df) = some df := by
  apply read_csv_to_csv
  · rw [h.1]
    decide
  · intro r hrm
    rw [h.1, h.2 r hrm]
    decide

/-- A sample dataset whose cells exercise the quoting discipline: commas,
quotes and a line break inside cell values. -/
def sampleDf : Frame :=
  ⟨HEADERS,
   [[txt "Data Engineer", txt "Acme, Inc.", txt "2025-01-02 09:30",
     txt "7/10", txt "https://www.acme.co/jobs?id=1", txt "Submitted",
     txt "notes: \"SQL\"\nand dbt"]]⟩

/-- Claim C1: round-trip through storage is the identity — saving any
Dataset with `save_data` and loading the resulting file with `load_data`
yields the same Dataset (fields compared as text, columns in Schema
order). -/
theorem save_then_load_is_identity (df : Frame) (fs : FileState) (b : Bool)
    (h : df.IsDataset) :
    (load_data (save_data df fs true).fs b).df = df ∧
    (load_data (save_data df fs true).fs b).outcome = .readOk := by
  have hread : read_csv (to_csv df) = some df := read_csv_to_csv_dataset df h
  have hsave : (save_data df fs true).fs = .present (to_csv df) := rfl
  rw [hsave]
  simp only [load_data, hread]
  simp [reindex_id df h]

/-- Witness for C1 at a concrete dataset with commas, quotes and a newline
inside cells. -/
theorem save_then_load_is_identity_witness :
    (load_data (save_data sampleDf FileState.absent true).fs true).df =
      sampleDf :=
  (save_then_load_is_identity sampleDf FileState.absent true (by decide)).1

/-- Claim C6: `load_data` never propagates a failure and always returns a
Schema-shaped Dataset.  On a missing store it creates the empty store,
persists it at once and returns the empty Dataset; a second load of that
store returns the empty Dataset again without touching the file (the store
is created on exactly the first call).  When creation fails it returns the
empty in-memory Dataset, persists nothing and surfaces a non-fatal
warning.  When the store exists but is unreadable it returns the empty
in-memory Dataset and surfaces an error. -/
theorem load_never_fails (content : List Char) (b : Bool) :
    (∀ fs c, (load_data fs c).df.IsDataset) ∧
    load_data FileState.absent true =
      ⟨emptyFrame, .present (to_csv emptyFrame), .initialized⟩ ∧
    load_data (FileState.present (to_csv emptyFrame)) b =
      ⟨emptyFrame, .present (to_csv emptyFrame), .readOk⟩ ∧
    load_data FileState.absent false = ⟨emptyFrame, .absent, .initFailed⟩ ∧
    (read_csv content = none →
      load_data (FileState.present content) b =
        ⟨emptyFrame, .present content, .readError⟩) := by
  refine ⟨?_, rfl, ?_, rfl, ?_⟩
  · intro fs c
    cases fs with
    | absent =>
        cases c <;> simp [load_data, emptyFrame, Frame.IsDataset, HEADERS]
    | present s =>
        cases hrc : read_csv s with
        | none => simp [load_data, hrc, emptyFrame, Frame.IsDataset, HEADERS]
        | some df0 =>
            simp only [load_data, hrc]
            exact reindex_isDataset df0
  · have hread : read_csv (to_csv emptyFrame) = some emptyFrame :=
      read_csv_to_csv_dataset emptyFrame (by decide)
    simp only [load_data, hread]
    rw [reindex_id emptyFrame (by decide)]
  · intro hnone
    simp only [load_data, hnone]

/-- Witness for C6: the unreadable-store branch at the empty file (which
pandas rejects with EmptyDataError), together with the concrete first- and
second-load equations. -/
theorem load_never_fails_witness :
    (load_data (FileState.present []) true).df.IsDataset ∧
    load_data FileState.absent true =
      ⟨emptyFrame, .present (to_csv emptyFrame), .initialized⟩ ∧
    load_data (FileState.present []) true =
      ⟨emptyFrame, .present [], .readError⟩ := by
  refine ⟨(load_never_fails [] true).1 (FileState.present []) true,
    (load_never_fails [] true).2.1, (load_never_fails [] true).2.2.2.2 ?_⟩
  decide

theorem colIdx_eq_none_iff (cs : List Field) (c : Field) :
    colIdx cs c = none ↔ c ∉ cs := by
  induction cs with
  | nil => simp [colIdx]
  | cons c0 rest ih =>
      by_cases h : c0 = c
      · subst h
        simp [colIdx]
      · have h2 : ¬c = c0 := fun hh => h hh.symm
        simp [colIdx, h, Option.map_eq_none', ih, List.mem_cons, h2]

theorem colIdx_eq_some (cs : List Field) (c : Field) :
    ∀ i, colIdx cs c = some i → i < cs.length ∧ cs.getD i [] = c := by
  induction cs with
  | nil => intro i h; simp [colIdx] at h
  | cons c0 rest ih =>
      intro i h
      by_cases h0 : c0 = c
      · subst h0
        simp [colIdx] at h
        subst h
        simp
      · simp only [colIdx, if_neg h0, Option.map_eq_some'] at h
        obtain ⟨j, hj, rfl⟩ := h
        obtain ⟨hlt, hg⟩ := ih j hj
        constructor
        · simp only [List.length_cons]
          omega
        · simpa using hg

theorem getD_map_of_lt {α β : Type} (f : α → β) (l : List α) (k : Nat)
    (hk : k < l.length) (db : β) (da : α) :
    (l.map f).getD k db = f (l.getD k da) := by
  rw [List.getD_eq_getElem?_getD, List.getD_eq_getElem?_getD, List.getElem?_map,
    List.getElem?_eq_getElem hk]
  simp

/-- Claim C2: every load of an existing readable store reconciles the parsed
frame against the Schema — the result exposes exactly the seven `HEADERS`
in Schema order, every row has seven cells, stored columns named in the
Schema keep their values, columns missing from the store are filled with
the empty string, and stored columns outside the Schema are dropped (the
result has no other columns). -/
theorem load_reconciles_columns (content : List Char) (df0 : Frame) (b : Bool)
    (h : read_csv content = some df0) :
    (load_data (FileState.present content) b).outcome = .readOk ∧
    (load_data (FileState.present content) b).df.cols = HEADERS ∧
    (load_data (FileState.present content) b).df.rows.length =
      df0.rows.length ∧
    (∀ r ∈ (load_data (FileState.present content) b).df.rows, r.length = 7) ∧
    (∀ k, k < df0.rows.length → ∀ j, j < 7 →
      (HEADERS.getD j [] ∉ df0.cols →
        cellAt ((load_data (FileState.present content) b).df.rows.getD k []) j
          = []) ∧
      (∀ i, colIdx df0.cols (HEADERS.getD j []) = some i →
        cellAt ((load_data (FileState.present content) b).df.rows.getD k []) j
          = cellAt (df0.rows.getD k []) i)) := by
  have hL : load_data (FileState.present content) b =
      ⟨reindex df0 HEADERS, .present content, .readOk⟩ := by
    simp only [load_data, h]
  rw [hL]
  refine ⟨rfl, rfl, by simp [reindex], (reindex_isDataset df0).2, ?_⟩
  intro k hk j hj
  have hj7 : j < HEADERS.length := by
    have : HEADERS.length = 7 := rfl
    omega
  have hrow : (reindex df0 HEADERS).rows.getD k [] =
      HEADERS.map fun c =>
        match colIdx df0.cols c with
        | some i => cellAt (df0.rows.getD k []) i
        | none => [] := by
    unfold reindex
    exact getD_map_of_lt _ df0.rows k hk [] []
  have hcell : ∀ g : Field → Field,
      cellAt (HEADERS.map g) j = g (HEADERS.getD j []) := by
    intro g
    unfold cellAt
    exact getD_map_of_lt g HEADERS j hj7 [] []
  constructor
  · intro hmem
    rw [hrow, hcell]
    rw [(colIdx_eq_none_iff df0.cols (HEADERS.getD j [])).mpr hmem]
  · intro i hi
    rw [hrow, hcell, hi]

/-- A stored frame whose columns cross the Schema: `Company` is a Schema
column, `Extra` is not, and the other six Schema columns are missing. -/
def crossFrame : Frame :=
  ⟨[txt "Company", txt "Extra"], [[txt "Acme", txt "Zed"]]⟩

/-- Witness for C2 at a store holding a known column, an unknown column and
missing columns. -/
theorem load_reconciles_columns_witness :
    (load_data (FileState.present (to_csv crossFrame)) true).df.cols =
      HEADERS ∧
    cellAt ((load_data (FileState.present (to_csv crossFrame)) true).df.rows.getD
      0 []) 0 = [] ∧
    cellAt ((load_data (FileState.present (to_csv crossFrame)) true).df.rows.getD
      0 []) 1 = txt "Acme" := by
  have happ := load_reconciles_columns (to_csv crossFrame) crossFrame true
    (by decide)
  exact ⟨happ.2.1,
    (happ.2.2.2.2 0 (by decide) 0 (by decide)).1 (by decide),
    (happ.2.2.2.2 0 (by decide) 1 (by decide)).2 0 (by decide)⟩

/-! ## Properties of the link validator -/

theorem afterLit_some (lit : List Char) :
    ∀ s r, afterLit lit s = some r → s = lit ++ r := by
  induction lit with
  | nil =>
      intro s r h
      simp only [afterLit, Option.some.injEq] at h
      rw [List.nil_append, h]
  | cons a lit ih =>
      intro s r h
      cases s with
      | nil => simp [afterLit] at h
      | cons b s =>
          by_cases hab : a = b
          · subst hab
            simp only [afterLit, if_pos rfl] at h
            rw [List.cons_append, ih s r h]
          · simp [afterLit, hab] at h

theorem validate_link_empty : validate_link [] = false := by decide

/-- Every accepted link starts with the `http://` or `https://` scheme. -/
theorem validate_link_scheme (s : Field) (h : validate_link s = true) :
    (∃ r, s = txt "http://" ++ r) ∨ ∃ r, s = txt "https://" ++ r := by
  unfold validate_link at h
  cases h1 : afterLit (txt "https://") s with
  | some mid => exact Or.inr ⟨mid, afterLit_some _ s mid h1⟩
  | none =>
      rw [h1] at h
      cases h2 : afterLit (txt "http://") s with
      | some mid => exact Or.inl ⟨mid, afterLit_some _ s mid h2⟩
      | none => rw [h2] at h; simp at h

theorem validate_link_ne_nil (s : Field) (h : validate_link s = true) :
    s ≠ [] := by
  rcases validate_link_scheme s h with ⟨r, hr⟩ | ⟨r, hr⟩ <;> subst hr <;> simp [txt]

theorem isUrlAlnum_no_space (c : Char) (h : isUrlAlnum c = true) :
    isPySpace c = false := by
  by_contra hsp
  rw [Bool.not_eq_false] at hsp
  simp only [isPySpace, Bool.or_eq_true, decide_eq_true_eq] at hsp
  rcases hsp with ((((h1 | h1) | h1) | h1) | h1) | h1 <;> subst h1 <;>
    exact absurd h (by decide)

theorem matchesTail_no_space (t : Field) (h : matchesTail t = true) :
    ∀ c ∈ t, isPySpace c = false := by
  intro c hc
  unfold matchesTail at h
  cases hd : t.dropWhile isUrlAlnum with
  | nil => rw [hd] at h; simp at h
  | cons c0 b =>
      rw [hd] at h
      simp only [Bool.and_eq_true, decide_eq_true_eq, List.all_eq_true] at h
      obtain ⟨⟨⟨_, hc0⟩, _⟩, hball⟩ := h
      have hsplit := List.takeWhile_append_dropWhile (p := isUrlAlnum) (l := t)
      rw [← hsplit] at hc
      rw [hd] at hc
      rcases List.mem_append.mp hc with hm | hm
      · exact isUrlAlnum_no_space c (List.mem_takeWhile_imp hm)
      · rcases List.mem_cons.mp hm with rfl | hm2
        · rw [hc0]; decide
        · have hb := hball c hm2
          simpa using hb

theorem matchesHost_no_space (mid : Field) (h : matchesHost mid = true) :
    ∀ c ∈ mid, isPySpace c = false := by
  intro c hc
  unfold matchesHost at h
  cases h1 : afterLit (txt "www.") mid with
  | none => rw [h1] at h; exact matchesTail_no_space mid h c hc
  | some t =>
      rw [h1] at h
      have hsp := afterLit_some _ mid t h1
      rw [hsp] at hc
      rcases List.mem_append.mp hc with hm | hm
      · have hlit : ∀ x ∈ txt "www.", isPySpace x = false := by decide
        exact hlit c hm
      · exact matchesTail_no_space t h c hm

/-- Every character of an accepted link is non-whitespace. -/
theorem validate_link_no_space (s : Field) (h : validate_link s = true) :
    ∀ c ∈ s, isPySpace c = false := by
  intro c hc
  unfold validate_link at h
  cases h1 : afterLit (txt "https://") s with
  | some mid =>
      rw [h1] at h
      have hsp := afterLit_some _ s mid h1
      rw [hsp] at hc
      rcases List.mem_append.mp hc with hm | hm
      · have hlit : ∀ x ∈ txt "https://", isPySpace x = false := by decide
        exact hlit c hm
      · exact matchesHost_no_space mid h c hm
  | none =>
      rw [h1] at h
      cases h2 : afterLit (txt "http://") s with
      | some mid =>
          rw [h2] at h
          have hsp := afterLit_some _ s mid h2
          rw [hsp] at hc
          rcases List.mem_append.mp hc with hm | hm
          · have hlit : ∀ x ∈ txt "http://", isPySpace x = false := by decide
            exact hlit c hm
          · exact matchesHost_no_space mid h c hm
      | none => rw [h2] at h; simp at h

/-- The validator rejects any string containing whitespace. -/
theorem validate_link_rejects_space (s : Field)
    (hc : ∃ c ∈ s, isPySpace c = true) : validate_link s = false := by
  obtain ⟨c, hmem, hsp⟩ := hc
  by_contra hv
  rw [Bool.not_eq_false] at hv
  have hns := validate_link_no_space s hv c hmem
  rw [hns] at hsp
  exact Bool.false_ne_true hsp

/-- Claim C3: insert fails with a validation error, touching neither the
session frame nor the file, exactly when `Job_Title`, `Company` or the
stripped link is empty or the stripped link fails the URL shape (the
validator being a full-string match that rejects the empty string, a
missing `http`/`https` scheme, and any embedded whitespace); otherwise it
stamps `Date_Submitted` with the supplied current time, appends exactly one
record at the end of the in-memory Dataset leaving the existing records
unchanged, and saves the full resulting Dataset. -/
theorem insert_validation_gate (df : Frame) (inp : AddInput) (now : Field)
    (fs : FileState) (cw : Bool) :
    (((show_add_entry_form df inp now fs cw).outcome = .missingRequired ∨
        (show_add_entry_form df inp now fs cw).outcome = .invalidUrl) ↔
      (inp.job_title = [] ∨ inp.company = [] ∨ pyStrip inp.job_link_raw = [] ∨
        validate_link (pyStrip inp.job_link_raw) = false)) ∧
    ((inp.job_title = [] ∨ inp.company = [] ∨ pyStrip inp.job_link_raw = [] ∨
        validate_link (pyStrip inp.job_link_raw) = false) →
      (show_add_entry_form df inp now fs cw).df = df ∧
      (show_add_entry_form df inp now fs cw).fs = fs) ∧
    (inp.job_title ≠ [] → inp.company ≠ [] →
      validate_link (pyStrip inp.job_link_raw) = true →
      (show_add_entry_form df inp now fs cw).df.rows =
        df.rows ++ [newEntryRow inp (pyStrip inp.job_link_raw) now] ∧
      cellAt (newEntryRow inp (pyStrip inp.job_link_raw) now) 2 = now ∧
      (show_add_entry_form df inp now fs cw).outcome = .saved cw ∧
      (cw = true →
        (show_add_entry_form df inp now fs cw).fs =
          FileState.present (to_csv ⟨df.cols,
            df.rows ++ [newEntryRow inp (pyStrip inp.job_link_raw) now]⟩))) ∧
    validate_link [] = false ∧
    (∀ s : Field, (∃ c ∈ s, isPySpace c = true) → validate_link s = false) ∧
    (∀ s : Field, validate_link s = true →
      (∃ r, s = txt "http://" ++ r) ∨ ∃ r, s = txt "https://" ++ r) := by
  by_cases hA : inp.job_title = [] ∨ inp.company = [] ∨
      pyStrip inp.job_link_raw = []
  · have hR : show_add_entry_form df inp now fs cw = ⟨df, fs, .missingRequired⟩ := by
      simp only [show_add_entry_form]
      rw [if_pos hA]
    refine ⟨?_, ?_, ?_, validate_link_empty,
      fun s hs => validate_link_rejects_space s hs,
      fun s hs => validate_link_scheme s hs⟩
    · rw [hR]
      exact ⟨fun _ => by tauto, fun _ => Or.inl rfl⟩
    · intro _
      rw [hR]
      exact ⟨rfl, rfl⟩
    · intro ht hc hv
      rcases hA with h | h | h
      · exact absurd h ht
      · exact absurd h hc
      · rw [h, validate_link_empty] at hv
        exact absurd hv (by simp)
  · by_cases hB : validate_link (pyStrip inp.job_link_raw) = false
    · have hR : show_add_entry_form df inp now fs cw = ⟨df, fs, .invalidUrl⟩ := by
        simp only [show_add_entry_form]
        rw [if_neg hA, if_pos hB]
      refine ⟨?_, ?_, ?_, validate_link_empty,
        fun s hs => validate_link_rejects_space s hs,
        fun s hs => validate_link_scheme s hs⟩
      · rw [hR]
        exact ⟨fun _ => by tauto, fun _ => Or.inr rfl⟩
      · intro _
        rw [hR]
        exact ⟨rfl, rfl⟩
      · intro _ _ hv
        rw [hv] at hB
        exact absurd hB (by simp)
    · have hv : validate_link (pyStrip inp.job_link_raw) = true := by
        rcases Bool.dichotomy (validate_link (pyStrip inp.job_link_raw)) with h | h
        · exact absurd h hB
        · exact h
      have hR : show_add_entry_form df inp now fs cw =
          ⟨⟨df.cols, df.rows ++ [newEntryRow inp (pyStrip inp.job_link_raw) now]⟩,
            (save_data ⟨df.cols,
              df.rows ++ [newEntryRow inp (pyStrip inp.job_link_raw) now]⟩ fs cw).fs,
            .saved (save_data ⟨df.cols,
              df.rows ++ [newEntryRow inp (pyStrip inp.job_link_raw) now]⟩ fs cw).ok⟩ := by
        simp only [show_add_entry_form]
        rw [if_neg hA, if_neg hB]
      refine ⟨?_, ?_, ?_, validate_link_empty,
        fun s hs => validate_link_rejects_space s hs,
        fun s hs => validate_link_scheme s hs⟩
      · constructor
        · rintro (hx | hx) <;> rw [hR] at hx <;> simp at hx
        · intro hx
          exact absurd hx (by tauto)
      · intro hx
        exact absurd hx (by tauto)
      · intro _ _ _
        rw [hR]
        refine ⟨rfl, rfl, ?_, ?_⟩
        · cases cw <;> rfl
        · intro hcw
          subst hcw
          rfl

/-- A concrete Add Entry submission whose link carries surrounding blanks. -/
def goodInput : AddInput :=
  ⟨txt "Engineer", txt "Acme", txt "5/10", txt "sql",
   txt "  https://example.com/job  ", txt "Submitted"⟩

/-- Witness for C3: the concrete valid submission succeeds, appends its one
record and stamps the date. -/
theorem insert_validation_gate_witness :
    (show_add_entry_form emptyFrame goodInput (txt "2025-01-02 09:30")
      FileState.absent true).outcome = .saved true ∧
    (show_add_entry_form emptyFrame goodInput (txt "2025-01-02 09:30")
      FileState.absent true).df.rows =
      [newEntryRow goodInput (pyStrip goodInput.job_link_raw)
        (txt "2025-01-02 09:30")] := by
  have happ := insert_validation_gate emptyFrame goodInput
    (txt "2025-01-02 09:30") FileState.absent true
  obtain ⟨hrows, _, hout, _⟩ :=
    happ.2.2.1 (by decide) (by decide) (by decide)
  exact ⟨hout, by simpa using hrows⟩

/-- Claim C10: insert strips leading and trailing whitespace from the link
before validation and storage — whenever the stripped link passes the URL
shape and the required fields are non-empty, the insert succeeds and the
stored record's `Link` cell is exactly the stripped string, even though the
validator itself rejects any string containing whitespace. -/
theorem insert_stores_stripped_link (df : Frame) (inp : AddInput) (now : Field)
    (fs : FileState) (cw : Bool) (ht : inp.job_title ≠ [])
    (hc : inp.company ≠ [])
    (hv : validate_link (pyStrip inp.job_link_raw) = true) :
    (show_add_entry_form df inp now fs cw).outcome = .saved cw ∧
    (show_add_entry_form df inp now fs cw).df.rows =
      df.rows ++ [newEntryRow inp (pyStrip inp.job_link_raw) now] ∧
    cellAt (newEntryRow inp (pyStrip inp.job_link_raw) now) 4 =
      pyStrip inp.job_link_raw ∧
    (∀ s : Field, (∃ c ∈ s, isPySpace c = true) → validate_link s = false) := by
  have hA : ¬(inp.job_title = [] ∨ inp.company = [] ∨
      pyStrip inp.job_link_raw = []) := by
    rintro (h | h | h)
    · exact ht h
    · exact hc h
    · exact validate_link_ne_nil _ hv h
  have hB : ¬validate_link (pyStrip inp.job_link_raw) = false := by
    rw [hv]
    simp
  have hR : show_add_entry_form df inp now fs cw =
      ⟨⟨df.cols, df.rows ++ [newEntryRow inp (pyStrip inp.job_link_raw) now]⟩,
        (save_data ⟨df.cols,
          df.rows ++ [newEntryRow inp (pyStrip inp.job_link_raw) now]⟩ fs cw).fs,
        .saved (save_data ⟨df.cols,
          df.rows ++ [newEntryRow inp (pyStrip inp.job_link_raw) now]⟩ fs cw).ok⟩ := by
    simp only [show_add_entry_form]
    rw [if_neg hA, if_neg hB]
  rw [hR]
  exact ⟨by cases cw <;> rfl, rfl, rfl,
    fun s hs => validate_link_rejects_space s hs⟩

/-- A concrete Add Entry submission with a tab and blanks around the link. -/
def tabbedInput : AddInput :=
  ⟨txt "Analyst", txt "Globex", txt "3/8", txt "dbt",
   txt "\thttps://www.globex.io/careers ", txt "Interviewing"⟩

/-- Witness for C10: stripping makes the tab-wrapped link pass, and the
stored `Link` cell equals the stripped text. -/
theorem insert_stores_stripped_link_witness :
    (show_add_entry_form emptyFrame tabbedInput (txt "2025-03-04 10:00")
      FileState.absent false).df.rows =
      [newEntryRow tabbedInput (txt "https://www.globex.io/careers")
        (txt "2025-03-04 10:00")] ∧
    cellAt (newEntryRow tabbedInput (pyStrip tabbedInput.job_link_raw)
      (txt "2025-03-04 10:00")) 4 = txt "https://www.globex.io/careers" := by
  have happ := insert_stores_stripped_link emptyFrame tabbedInput
    (txt "2025-03-04 10:00") FileState.absent false (by decide) (by decide)
    (by decide)
  refine ⟨?_, ?_⟩
  · rw [happ.2.1]
    decide
  · rw [happ.2.2.1]
    decide

/-! ## Delete semantics -/

theorem length_filter_add_eq (l : List (List Field)) (i : Nat) (v : Field) :
    (l.filter fun r => cellAt r i ≠ v).length +
      (l.filter fun r => cellAt r i = v).length = l.length := by
  induction l with
  | nil => simp
  | cons r l ih =>
      by_cases h : cellAt r i = v
      · have h1 : decide (cellAt r i ≠ v) = false := by simp [h]
        have h2 : decide (cellAt r i = v) = true := by simp [h]
        simp only [List.filter_cons, h1, h2, Bool.false_eq_true, if_false,
          if_true, List.length_cons]
        omega
      · have h1 : decide (cellAt r i ≠ v) = true := by simp [h]
        have h2 : decide (cellAt r i = v) = false := by simp [h]
        simp only [List.filter_cons, h1, h2, Bool.false_eq_true, if_false,
          if_true, List.length_cons]
        omega

/-- Loading a file that holds the snapshot of a Dataset returns exactly that
Dataset and leaves the file untouched. -/
theorem load_of_saved_dataset (df0 : Frame) (b : Bool) (h : df0.IsDataset) :
    load_data (FileState.present (to_csv df0)) b =
      ⟨df0, .present (to_csv df0), .readOk⟩ := by
  have hread := read_csv_to_csv_dataset df0 h
  simp only [load_data, hread]
  rw [reindex_id df0 h]

/-- Claim C4: `delete_where` removes exactly the records whose `col` cell
equals `value` (text against text), keeps the survivors in their original
relative order, and reports the removed count.  Zero matches are a warning
(`noMatch`) distinct from an error, with no save and nothing changed; when
n > 0 records are removed from a Dataset of size m and the save succeeds,
reloading the store yields exactly m − n records, none of which matches. -/
theorem delete_where_semantics (df : Frame) (col value : Field) (i : Nat)
    (fs : FileState) (cw : Bool) (b : Bool)
    (hidx : colIdx df.cols col = some i) (hds : df.IsDataset) :
    ((df.rows.filter fun r => cellAt r i = value).length = 0 →
      show_delete_form df col value fs cw = ⟨df, fs, .noMatch⟩) ∧
    (0 < (df.rows.filter fun r => cellAt r i = value).length →
      (show_delete_form df col value fs cw).df.rows =
        (df.rows.filter fun r => cellAt r i ≠ value) ∧
      (show_delete_form df col value fs cw).df.rows.Sublist df.rows ∧
      (∀ r ∈ (show_delete_form df col value fs cw).df.rows,
        cellAt r i ≠ value) ∧
      (show_delete_form df col value fs cw).outcome =
        .deleted (df.rows.filter fun r => cellAt r i = value).length cw ∧
      (cw = true →
        (show_delete_form df col value fs cw).fs =
          FileState.present (to_csv ⟨df.cols,
            df.rows.filter fun r => cellAt r i ≠ value⟩) ∧
        (load_data (show_delete_form df col value fs cw).fs b).df.rows =
          (df.rows.filter fun r => cellAt r i ≠ value) ∧
        (load_data (show_delete_form df col value fs cw).fs b).df.rows.length =
          df.rows.length -
            (df.rows.filter fun r => cellAt r i = value).length ∧
        ∀ r ∈ (load_data (show_delete_form df col value fs cw).fs b).df.rows,
          cellAt r i ≠ value)) := by
  have hsum := length_filter_add_eq df.rows i value
  constructor
  · intro h0
    have hkeep : ¬ 0 < df.rows.length -
        (df.rows.filter fun r => cellAt r i ≠ value).length := by
      omega
    simp only [show_delete_form, hidx]
    rw [if_neg hkeep]
  · intro hpos
    have hkeep : 0 < df.rows.length -
        (df.rows.filter fun r => cellAt r i ≠ value).length := by
      have hle := List.length_filter_le
        (fun r => decide (cellAt r i ≠ value)) df.rows
      omega
    have hcount : df.rows.length -
        (df.rows.filter fun r => cellAt r i ≠ value).length =
        (df.rows.filter fun r => cellAt r i = value).length := by
      omega
    have hD : show_delete_form df col value fs cw =
        ⟨⟨df.cols, df.rows.filter fun r => cellAt r i ≠ value⟩,
          (save_data ⟨df.cols, df.rows.filter fun r => cellAt r i ≠ value⟩
            fs cw).fs,
          .deleted (df.rows.length -
            (df.rows.filter fun r => cellAt r i ≠ value).length)
            (save_data ⟨df.cols, df.rows.filter fun r => cellAt r i ≠ value⟩
              fs cw).ok⟩ := by
      simp only [show_delete_form, hidx]
      rw [if_pos hkeep]
    have hds2 : (Frame.mk df.cols
        (df.rows.filter fun r => cellAt r i ≠ value)).IsDataset :=
      ⟨hds.1, fun r hr => hds.2 r (List.mem_filter.mp hr).1⟩
    refine ⟨by rw [hD], ?_, ?_, ?_, ?_⟩
    · rw [hD]
      exact List.filter_sublist df.rows
    · intro r hr
      rw [hD] at hr
      have := (List.mem_filter.mp hr).2
      simpa using this
    · rw [hD, hcount]
      cases cw <;> rfl
    · intro hcw
      subst hcw
      have hfs : (show_delete_form df col value fs true).fs =
          FileState.present (to_csv ⟨df.cols,
            df.rows.filter fun r => cellAt r i ≠ value⟩) := by
        rw [hD]
        rfl
      refine ⟨hfs, ?_, ?_, ?_⟩
      · rw [hfs, load_of_saved_dataset _ b hds2]
      · rw [hfs, load_of_saved_dataset _ b hds2]
        have hgoal : (df.rows.filter fun r => cellAt r i ≠ value).length =
            df.rows.length -
              (df.rows.filter fun r => cellAt r i = value).length := by
          omega
        exact hgoal
      · intro r hr
        rw [hfs, load_of_saved_dataset _ b hds2] at hr
        have := (List.mem_filter.mp hr).2
        simpa using this

/-- A three-record dataset, two of its records at `Globex`. -/
def threeRowDf : Frame :=
  ⟨HEADERS,
   [[txt "Dev", txt "Globex", txt "2025-01-01 08:00", txt "4/9",
     txt "https://globex.io/a", txt "Submitted", txt ""],
    [txt "SRE", txt "Acme", txt "2025-01-02 08:00", txt "6/9",
     txt "https://acme.co/b", txt "Rejected", txt ""],
    [txt "PM", txt "Globex", txt "2025-01-03 08:00", txt "2/9",
     txt "https://globex.io/c", txt "Interviewing", txt ""]]⟩

/-- Witness for C4: deleting `Company = Globex` from the three-record
dataset removes two records, and the reloaded store holds exactly the one
surviving record. -/
theorem delete_where_semantics_witness :
    (show_delete_form threeRowDf (txt "Company") (txt "Globex")
      FileState.absent true).outcome = .deleted 2 true ∧
    (load_data (show_delete_form threeRowDf (txt "Company") (txt "Globex")
      FileState.absent true).fs true).df.rows.length = 1 := by
  have happ := delete_where_semantics threeRowDf (txt "Company") (txt "Globex")
    1 FileState.absent true true (by decide) (by decide)
  obtain ⟨_, _, _, hout, hsave⟩ := happ.2 (by decide)
  obtain ⟨_, _, hlen, _⟩ := hsave rfl
  constructor
  · rw [hout]
    decide
  · rw [hlen]
    decide

/-! ## Update semantics -/

theorem firstIdx_none_iff (ident : Field) (rows : List (List Field)) :
    firstIdx ident rows = none ↔ ∀ r ∈ rows, identOf r ≠ ident := by
  induction rows with
  | nil => simp [firstIdx]
  | cons r rest ih =>
      by_cases h : identOf r = ident
      · simp [firstIdx, h]
      · simp [firstIdx, h, Option.map_eq_none', ih]

theorem firstIdx_some_spec (ident : Field) (rows : List (List Field)) :
    ∀ i, firstIdx ident rows = some i →
      i < rows.length ∧ identOf (rows.getD i []) = ident ∧
      ∀ j, j < i → identOf (rows.getD j []) ≠ ident := by
  induction rows with
  | nil => intro i h; simp [firstIdx] at h
  | cons r rest ih =>
      intro i h
      by_cases h0 : identOf r = ident
      · simp only [firstIdx, if_pos h0, Option.some.injEq] at h
        subst h
        exact ⟨by simp, by simpa using h0, fun j hj => by omega⟩
      · simp only [firstIdx, if_neg h0, Option.map_eq_some'] at h
        obtain ⟨j0, hj0, rfl⟩ := h
        obtain ⟨hlt, hid, hfirst⟩ := ih j0 hj0
        refine ⟨by simp only [List.length_cons]; omega, by simpa using hid, ?_⟩
        intro j hj
        cases j with
        | zero => simpa using h0
        | succ j2 =>
            have hj2 : j2 < j0 := by omega
            simpa using hfirst j2 hj2

theorem getD_set_ne (l : List (List Field)) (i j : Nat) (v : List Field)
    (h : j ≠ i) : (l.set i v).getD j [] = l.getD j [] := by
  rw [List.getD_eq_getElem?_getD, List.getD_eq_getElem?_getD,
    List.getElem?_set_ne (Ne.symm h)]

theorem getD_set_self (l : List (List Field)) (i : Nat) (v : List Field)
    (h : i < l.length) : (l.set i v).getD i [] = v := by
  rw [List.getD_eq_getElem?_getD, List.getElem?_set_self h]
  rfl

/-- Claim C5: when at least one record matches the derived Identifier,
update targets the first matching record, overwrites its six editable
fields with the form values while keeping `Date_Submitted`, leaves every
other record untouched, and persists the full dataset; when no record
matches, it fails (`notFound`) and neither the frame nor the file is
touched. -/
theorem update_first_match (df : Frame) (ident : Field) (inp : ModInput)
    (fs : FileState) (cw : Bool) :
    ((∃ r ∈ df.rows, identOf r = ident) →
      ∃ i, firstIdx ident df.rows = some i) ∧
    (∀ i, firstIdx ident df.rows = some i →
      identOf (df.rows.getD i []) = ident ∧
      (∀ j, j < i → identOf (df.rows.getD j []) ≠ ident) ∧
      (show_modify_entry_form df ident inp fs cw).df.cols = df.cols ∧
      (show_modify_entry_form df ident inp fs cw).df.rows.length =
        df.rows.length ∧
      (show_modify_entry_form df ident inp fs cw).df.rows.getD i [] =
        modifiedRow (df.rows.getD i []) inp ∧
      cellAt ((show_modify_entry_form df ident inp fs cw).df.rows.getD i []) 2
        = cellAt (df.rows.getD i []) 2 ∧
      cellAt ((show_modify_entry_form df ident inp fs cw).df.rows.getD i []) 0
        = inp.job_title ∧
      cellAt ((show_modify_entry_form df ident inp fs cw).df.rows.getD i []) 1
        = inp.company ∧
      cellAt ((show_modify_entry_form df ident inp fs cw).df.rows.getD i []) 3
        = inp.requirements ∧
      cellAt ((show_modify_entry_form df ident inp fs cw).df.rows.getD i []) 4
        = inp.link ∧
      cellAt ((show_modify_entry_form df ident inp fs cw).df.rows.getD i []) 5
        = inp.status ∧
      cellAt ((show_modify_entry_form df ident inp fs cw).df.rows.getD i []) 6
        = inp.require_enhancement ∧
      (∀ j, j ≠ i →
        (show_modify_entry_form df ident inp fs cw).df.rows.getD j [] =
          df.rows.getD j []) ∧
      (show_modify_entry_form df ident inp fs cw).outcome = .applied cw ∧
      (cw = true →
        (show_modify_entry_form df ident inp fs cw).fs =
          FileState.present (to_csv ⟨df.cols,
            df.rows.set i (modifiedRow (df.rows.getD i []) inp)⟩))) ∧
    (firstIdx ident df.rows = none →
      show_modify_entry_form df ident inp fs cw = ⟨df, fs, .notFound⟩) := by
  refine ⟨?_, ?_, ?_⟩
  · intro hex
    cases hm : firstIdx ident df.rows with
    | some i => exact ⟨i, rfl⟩
    | none =>
        obtain ⟨r, hr, hid⟩ := hex
        exact absurd hid ((firstIdx_none_iff ident df.rows).mp hm r hr)
  · intro i hm
    obtain ⟨hlt, hid, hfirst⟩ := firstIdx_some_spec ident df.rows i hm
    have hM : show_modify_entry_form df ident inp fs cw =
        ⟨⟨df.cols, df.rows.set i (modifiedRow (df.rows.getD i []) inp)⟩,
          (save_data ⟨df.cols,
            df.rows.set i (modifiedRow (df.rows.getD i []) inp)⟩ fs cw).fs,
          .applied (save_data ⟨df.cols,
            df.rows.set i (modifiedRow (df.rows.getD i []) inp)⟩ fs cw).ok⟩ := by
      simp only [show_modify_entry_form, hm]
    have hself : (df.rows.set i (modifiedRow (df.rows.getD i []) inp)).getD i []
        = modifiedRow (df.rows.getD i []) inp := getD_set_self _ i _ hlt
    refine ⟨hid, hfirst, by rw [hM], by rw [hM]; simp [List.length_set],
      ?_, ?_, ?_, ?_, ?_, ?_, ?_, ?_, ?_, ?_, ?_⟩
    · rw [hM]
      exact hself
    · rw [hM]
      simp only
      rw [hself]
      rfl
    · rw [hM]
      simp only
      rw [hself]
      rfl
    · rw [hM]
      simp only
      rw [hself]
      rfl
    · rw [hM]
      simp only
      rw [hself]
      rfl
    · rw [hM]
      simp only
      rw [hself]
      rfl
    · rw [hM]
      simp only
      rw [hself]
      rfl
    · rw [hM]
      simp only
      rw [hself]
      rfl
    · intro j hj
      rw [hM]
      exact getD_set_ne _ i j _ hj
    · rw [hM]
      cases cw <;> rfl
    · intro hcw
      subst hcw
      rw [hM]
      rfl
  · intro hm
    simp only [show_modify_entry_form, hm]

/-- The Modify form values used by the update witnesses. -/
def modInputW : ModInput :=
  ⟨txt "Dev", txt "Globex", txt "5/9", txt "https://globex.io/a",
   txt "Interviewing", txt "k8s"⟩

/-- Witness for C5 on the three-record dataset: updating the first `Dev -
Globex` record keeps its `Date_Submitted`, rewrites its `Status`, and leaves
the second record unchanged. -/
theorem update_first_match_witness :
    cellAt ((show_modify_entry_form threeRowDf (txt "Dev - Globex") modInputW
      FileState.absent true).df.rows.getD 0 []) 2 = txt "2025-01-01 08:00" ∧
    cellAt ((show_modify_entry_form threeRowDf (txt "Dev - Globex") modInputW
      FileState.absent true).df.rows.getD 0 []) 5 = txt "Interviewing" ∧
    (show_modify_entry_form threeRowDf (txt "Dev - Globex") modInputW
      FileState.absent true).df.rows.getD 1 [] = threeRowDf.rows.getD 1 [] := by
  have happ := (update_first_match threeRowDf (txt "Dev - Globex") modInputW
    FileState.absent true).2.1 0 (by decide)
  refine ⟨?_, happ.2.2.2.2.2.2.2.2.2.2.1, happ.2.2.2.2.2.2.2.2.2.2.2.2.1 1 (by decide)⟩
  rw [happ.2.2.2.2.2.1]
  decide

/-- Claim C8: preparing a record for modification never fails on a stored
`Status` outside the enumerated set — the first enumerated value
(`Submitted`) is substituted as the presentation default, a stored allowed
value is kept as is, and the stored dataset is returned unchanged. -/
theorem status_fallback_semantics (df : Frame) (ident : Field) (i : Nat)
    (hm : firstIdx ident df.rows = some i) :
    (cellAt (df.rows.getD i []) 5 ∉ ALLOWED_STATUSES →
      prepare_modify_status df ident = (some (txt "Submitted"), df)) ∧
    (cellAt (df.rows.getD i []) 5 ∈ ALLOWED_STATUSES →
      prepare_modify_status df ident =
        (some (cellAt (df.rows.getD i []) 5), df)) ∧
    (prepare_modify_status df ident).2 = df ∧
    ALLOWED_STATUSES.getD 0 [] = txt "Submitted" := by
  refine ⟨?_, ?_, ?_, by decide⟩
  · intro hmem
    simp only [prepare_modify_status, hm, statusFallback, if_neg hmem]
  · intro hmem
    simp only [prepare_modify_status, hm, statusFallback, if_pos hmem]
  · simp only [prepare_modify_status, hm]

/-- A dataset whose single record carries a `Status` outside the enumerated
set. -/
def corruptDf : Frame :=
  ⟨HEADERS,
   [[txt "Dev", txt "Acme", txt "2025-01-01 08:00", txt "",
     txt "https://acme.co/x", txt "Pending", txt ""]]⟩

/-- Witness for C8: the record with stored status `Pending` is presented
with the default `Submitted` and the dataset is returned untouched. -/
theorem status_fallback_semantics_witness :
    prepare_modify_status corruptDf (txt "Dev - Acme") =
      (some (txt "Submitted"), corruptDf) :=
  (status_fallback_semantics corruptDf (txt "Dev - Acme") 0 (by decide)).1
    (by decide)

/-! ## Migration and save-failure semantics -/

/-- Claim C7: migration appends the source's complete dataset onto the
destination's existing content, never replacing it — a destination with k
rows ends with k plus the source count, an empty destination ends with
exactly the source count — and it fails fast with no destination write when
the source is missing or unreadable. -/
theorem migration_appends (content : List Char) (sdf : Frame)
    (dest : List (List Field)) (c w : Bool)
    (h : read_csv content = some sdf) :
    run_migration (FileState.present content) dest true true =
      (dest ++ sdf.rows, .migrated sdf.rows.length) ∧
    (run_migration (FileState.present content) dest true true).1.length =
      dest.length + sdf.rows.length ∧
    (run_migration (FileState.present content) [] true true).1.length =
      sdf.rows.length ∧
    run_migration FileState.absent dest c w = (dest, .srcMissing) ∧
    (∀ content2, read_csv content2 = none →
      run_migration (FileState.present content2) dest c w =
        (dest, .srcReadFailed)) := by
  have hrun : run_migration (FileState.present content) dest true true =
      (dest ++ sdf.rows, .migrated sdf.rows.length) := by
    simp only [run_migration, h]
    rfl
  have hrun0 : run_migration (FileState.present content) [] true true =
      ([] ++ sdf.rows, .migrated sdf.rows.length) := by
    simp only [run_migration, h]
    rfl
  refine ⟨hrun, ?_, ?_, rfl, ?_⟩
  · rw [hrun]
    simp
  · rw [hrun0]
    simp
  · intro content2 h2
    simp only [run_migration, h2]

/-- Two pre-existing destination rows for the migration witness. -/
def destTwo : List (List Field) :=
  [[txt "Old", txt "Rows", txt "2024-01-01 08:00", txt "", txt "", txt "", txt ""],
   [txt "Kept", txt "Here", txt "2024-01-02 08:00", txt "", txt "", txt "", txt ""]]

/-- Witness for C7: migrating the three-record CSV into a two-row
destination yields five rows whose prefix is the old destination content. -/
theorem migration_appends_witness :
    run_migration (FileState.present (to_csv threeRowDf)) destTwo true true =
      (destTwo ++ threeRowDf.rows, .migrated 3) ∧
    (run_migration (FileState.present (to_csv threeRowDf)) destTwo
      true true).1.length = 5 := by
  have happ := migration_appends (to_csv threeRowDf) threeRowDf destTwo
    true true (read_csv_to_csv_dataset threeRowDf (by decide))
  refine ⟨?_, ?_⟩
  · rw [happ.1]
    rfl
  · rw [happ.2.1]
    decide

/-- Claim C9: when the save inside a mutation fails, the error is reported
to the caller and the in-memory dataset is not rolled back — after a failed
insert the session frame still holds the new record while the file is
untouched, and likewise the update and delete handlers keep their mutated
frame, leave the file unchanged and report the failed save. -/
theorem save_failure_keeps_memory (df : Frame) (inp : AddInput) (now : Field)
    (fs : FileState) (ht : inp.job_title ≠ []) (hc : inp.company ≠ [])
    (hv : validate_link (pyStrip inp.job_link_raw) = true) :
    ((show_add_entry_form df inp now fs false).df.rows =
        df.rows ++ [newEntryRow inp (pyStrip inp.job_link_raw) now] ∧
      (show_add_entry_form df inp now fs false).fs = fs ∧
      (show_add_entry_form df inp now fs false).outcome = .saved false) ∧
    (∀ ident mi i, firstIdx ident df.rows = some i →
      (show_modify_entry_form df ident mi fs false).fs = fs ∧
      (show_modify_entry_form df ident mi fs false).outcome = .applied false ∧
      (show_modify_entry_form df ident mi fs false).df.rows =
        df.rows.set i (modifiedRow (df.rows.getD i []) mi)) ∧
    (∀ col value i, colIdx df.cols col = some i →
      0 < (df.rows.filter fun r => cellAt r i = value).length →
      (show_delete_form df col value fs false).fs = fs ∧
      (show_delete_form df col value fs false).outcome =
        .deleted (df.rows.filter fun r => cellAt r i = value).length false ∧
      (show_delete_form df col value fs false).df.rows =
        (df.rows.filter fun r => cellAt r i ≠ value)) := by
  refine ⟨?_, ?_, ?_⟩
  · have hA : ¬(inp.job_title = [] ∨ inp.company = [] ∨
        pyStrip inp.job_link_raw = []) := by
      rintro (h | h | h)
      · exact ht h
      · exact hc h
      · exact validate_link_ne_nil _ hv h
    have hB : ¬validate_link (pyStrip inp.job_link_raw) = false := by
      rw [hv]
      simp
    have hR : show_add_entry_form df inp now fs false =
        ⟨⟨df.cols, df.rows ++ [newEntryRow inp (pyStrip inp.job_link_raw) now]⟩,
          fs, .saved false⟩ := by
      simp only [show_add_entry_form]
      rw [if_neg hA, if_neg hB]
      rfl
    rw [hR]
    exact ⟨rfl, rfl, rfl⟩
  · intro ident mi i hm
    have hM : show_modify_entry_form df ident mi fs false =
        ⟨⟨df.cols, df.rows.set i (modifiedRow (df.rows.getD i []) mi)⟩,
          fs, .applied false⟩ := by
      simp only [show_modify_entry_form, hm]
      rfl
    rw [hM]
    exact ⟨rfl, rfl, rfl⟩
  · intro col value i hidx hpos
    have hsum := length_filter_add_eq df.rows i value
    have hkeep : 0 < df.rows.length -
        (df.rows.filter fun r => cellAt r i ≠ value).length := by
      have hle := List.length_filter_le
        (fun r => decide (cellAt r i ≠ value)) df.rows
      omega
    have hcount : df.rows.length -
        (df.rows.filter fun r => cellAt r i ≠ value).length =
        (df.rows.filter fun r => cellAt r i = value).length := by
      omega
    have hD : show_delete_form df col value fs false =
        ⟨⟨df.cols, df.rows.filter fun r => cellAt r i ≠ value⟩, fs,
          .deleted (df.rows.length -
            (df.rows.filter fun r => cellAt r i ≠ value).length) false⟩ := by
      simp only [show_delete_form, hidx]
      rw [if_pos hkeep]
      rfl
    rw [hD, hcount]
    exact ⟨rfl, rfl, rfl⟩

/-- Witness for C9: the valid submission against an existing store with a
failing save keeps the new record in memory, reports the save as failed and
leaves the file content untouched. -/
theorem save_failure_keeps_memory_witness :
    (show_add_entry_form emptyFrame goodInput (txt "2025-05-06 11:00")
      (FileState.present (to_csv emptyFrame)) false).df.rows =
      [newEntryRow goodInput (pyStrip goodInput.job_link_raw)
        (txt "2025-05-06 11:00")] ∧
    (show_add_entry_form emptyFrame goodInput (txt "2025-05-06 11:00")
      (FileState.present (to_csv emptyFrame)) false).fs =
      FileState.present (to_csv emptyFrame) ∧
    (show_add_entry_form emptyFrame goodInput (txt "2025-05-06 11:00")
      (FileState.present (to_csv emptyFrame)) false).outcome = .saved false := by
  have happ := (save_failure_keeps_memory emptyFrame goodInput
    (txt "2025-05-06 11:00") (FileState.present (to_csv emptyFrame))
    (by decide) (by decide) (by decide)).1
  exact ⟨by simpa using happ.1, happ.2.1, happ.2.2⟩
